import Mathlib

/-!
Shallow embedding of the tick-processing service (app.py, validators.py,
ai.py, business.py) and proofs about the frozen claims.

Modelling conventions:
- JSON values are the inductive `JValue`; Python dicts are association
  lists with unique keys (as produced by JSON decoding), and dict update
  keeps insertion order as CPython does.
- Python floats are modelled as exact rationals; `round(x, 4)` is
  round-half-to-even on the exact value.
- Python exceptions are `Except PyErr`; a total Lean function models a
  Python function that cannot raise on the modelled input domain.
- External collaborators (the OpenAI client, the HTTP transport) are
  parameters: the AI call outcome is an `AIOutcome`, the mothership HTTP
  exchange is a `MothershipOutcome` (transport failure, or a status code
  plus the JSON-parse result of the body).
- The two persisted JSON files are explicit state (`StoreState`); a file
  value of `none` stands for an absent, unreadable or undecodable file.
- The builtin coercions int()/float() are modelled on JSON numbers and
  booleans; numeric strings are outside the modelled input domain (no
  claim below depends on them).
-/

-- Batteries seals the rational arithmetic against unfolding; concrete
-- evaluation of the embedded code in witnesses and counterexamples needs
-- these definitions to reduce again.
attribute [local semireducible] Rat.mul Rat.add Rat.sub Rat.inv Rat.ofScientific

namespace Strat

/-- A decoded JSON value (the result of json.load / request.get_json). -/
inductive JValue where
  | null
  | bool (b : Bool)
  | num (q : ℚ)
  | str (s : String)
  | arr (elems : List JValue)
  | obj (fields : List (String × JValue))
deriving Repr

/-- Python dict lookup by string key (objects decoded from JSON have
unique keys, so first match is the binding). Returns none on non-dicts
and on missing keys. -/
def JValue.lookup : JValue → String → Option JValue
  | .obj kvs, k => (kvs.find? (fun kv => kv.1 == k)).map (fun kv => kv.2)
  | _, _ => none

/-- Python errors that the modelled code can raise. -/
inductive PyErr where
  | typeError
  | keyError
  | transport
deriving DecidableEq, Repr

/-- Python dict item assignment on the underlying association list:
an existing key keeps its position, a new key is appended at the end
(CPython insertion-order semantics). -/
def setKey : List (String × JValue) → String → JValue → List (String × JValue)
  | [], k, v => [(k, v)]
  | (k', v') :: rest, k, v =>
      if k' == k then (k, v) :: rest else (k', v') :: setKey rest k v

/-- Python subscript assignment d[k] = v: a TypeError on non-dicts. -/
def jSetItem (d : JValue) (k : String) (v : JValue) : Except PyErr JValue :=
  match d with
  | .obj kvs => .ok (.obj (setKey kvs k v))
  | _ => .error .typeError

/-- Python subscript read d[k] for a string key: TypeError on non-dicts,
KeyError on a missing key. -/
def jGetItem (d : JValue) (k : String) : Except PyErr JValue :=
  match d with
  | .obj _ =>
    match d.lookup k with
    | some x => .ok x
    | none => .error .keyError
  | _ => .error .typeError

/-- Python d.get(k, default) for a dict d: TypeError (AttributeError in
CPython; the distinction is irrelevant here) on non-dicts. -/
def pyDictGetD (d : JValue) (k : String) (dflt : JValue) : Except PyErr JValue :=
  match d with
  | .obj _ => .ok ((d.lookup k).getD dflt)
  | _ => .error .typeError

/-- Python iteration over a value: lists yield elements, dicts yield their
keys, strings yield one-character strings, anything else raises. -/
def pyIter : JValue → Except PyErr (List JValue)
  | .arr xs => .ok xs
  | .obj kvs => .ok (kvs.map (fun kv => .str kv.1))
  | .str s => .ok (s.toList.map (fun c => .str (String.singleton c)))
  | _ => .error .typeError

/-- Truncation toward zero, as Python int() applies to floats. -/
def ratTrunc (q : ℚ) : ℤ := if 0 ≤ q then q.floor else -(-q).floor

/-- Python int(x) on a decoded JSON value (numeric strings are outside
the modelled domain). -/
def pyInt : JValue → Except PyErr ℤ
  | .num q => .ok (ratTrunc q)
  | .bool b => .ok (if b then 1 else 0)
  | _ => .error .typeError

/-- Python float(x) on a decoded JSON value (numeric strings are outside
the modelled domain). -/
def pyFloat : JValue → Except PyErr ℚ
  | .num q => .ok q
  | .bool b => .ok (if b then 1 else 0)
  | _ => .error .typeError

/-- Round-half-to-even to an integer, as Python round() does. -/
def roundHalfEven (q : ℚ) : ℤ :=
  let n := q.floor
  let r := q - (n : ℚ)
  if r < 1/2 then n
  else if 1/2 < r then n + 1
  else if n % 2 = 0 then n else n + 1

/-- Python round(x, 4) on the exact value. -/
def pyRound4 (q : ℚ) : ℚ := (roundHalfEven (q * 10000) : ℚ) / 10000

/-! ### validators.py -/

/-- Field-presence loop shared by the three item checks of
validate_tick_payload (source: validators.py lines 31-33, 39-41, 47-49):
returns the message of the first missing field in order. -/
def checkFields (ctx : String) (idx : Nat) (v : JValue) : List String → Option String
  | [] => none
  | f :: fs =>
      if (v.lookup f).isSome then checkFields ctx idx v fs
      else some s!"{ctx}[{idx}] missing \x27{f}\x27"

/-- The loop over Positions elements (validators.py lines 28-33). -/
def checkPositionsItems : Nat → List JValue → Option String
  | _, [] => none
  | idx, v :: rest =>
    match v with
    | .obj _ =>
      match checkFields "Positions" idx v ["ticker", "quantity", "purchase_price"] with
      | some msg => some msg
      | none => checkPositionsItems (idx + 1) rest
    | _ => some s!"Positions[{idx}] must be an object"

/-- The loop over Market_Summary elements (validators.py lines 36-41). -/
def checkMarketItems : Nat → List JValue → Option String
  | _, [] => none
  | idx, v :: rest =>
    match v with
    | .obj _ =>
      match checkFields "Market_Summary" idx v ["ticker", "current_price", "category"] with
      | some msg => some msg
      | none => checkMarketItems (idx + 1) rest
    | _ => some s!"Market_Summary[{idx}] must be an object"

/-- The loop over market_history elements, which additionally requires
the day field to be a string (validators.py lines 44-52). -/
def checkHistoryItems : Nat → List JValue → Option String
  | _, [] => none
  | idx, v :: rest =>
    match v with
    | .obj _ =>
      match checkFields "market_history" idx v ["ticker", "price", "day"] with
      | some msg => some msg
      | none =>
        match v.lookup "day" with
        | some (.str _) => checkHistoryItems (idx + 1) rest
        | _ => some "market_history.day must be a date string"
    | _ => some s!"market_history[{idx}] must be an object"

/-- The loop over required top-level keys: each must be present and be a
list, checked key by key in order (validators.py lines 20-25). -/
def requiredListsCheck (payload : JValue) : List String → Option String
  | [] => none
  | k :: ks =>
    match payload.lookup k with
    | none => some s!"Missing required field: {k}"
    | some (.arr _) => requiredListsCheck payload ks
    | some _ => some s!"{k} must be a list"

/-- Reads payload[k] as a list; at its call sites the key is known to map
to a list because requiredListsCheck passed. -/
def jArr (payload : JValue) (k : String) : List JValue :=
  match payload.lookup k with
  | some (.arr xs) => xs
  | _ => []

/-- validators.validate_tick_payload (validators.py lines 5-55). -/
def validate_tick_payload (payload : JValue) : Bool × String :=
  match payload with
  | .obj _ =>
    match requiredListsCheck payload ["Positions", "Market_Summary", "market_history"] with
    | some msg => (false, msg)
    | none =>
      match checkPositionsItems 0 (jArr payload "Positions") with
      | some msg => (false, msg)
      | none =>
        match checkMarketItems 0 (jArr payload "Market_Summary") with
        | some msg => (false, msg)
        | none =>
          match checkHistoryItems 0 (jArr payload "market_history") with
          | some msg => (false, msg)
          | none => (true, "OK")
  | _ => (false, "Payload must be a JSON object")

/-! ### ai.py -/

/-- The result dict of get_trade_recommendations: a trades list and a
rationale (both decoded JSON values). -/
structure RecResult where
  trades : List JValue
  rationale : JValue
deriving Repr

/-- ai._fallback_trades (ai.py lines 8-20): STAY with quantity 0 on every
Positions element that is a dict containing a ticker key. Iterating a
non-iterable Positions value raises, exactly as the comprehension does. -/
def _fallback_trades (tick_payload : JValue) : Except PyErr RecResult := do
  let posVal ← pyDictGetD tick_payload "Positions" (.arr [])
  let ps ← pyIter posVal
  .ok {
    trades := ps.filterMap (fun p =>
      match p with
      | .obj kvs =>
        match (JValue.obj kvs).lookup "ticker" with
        | some tv => some (.obj [("action", .str "STAY"), ("ticker", tv), ("quantity", .num 0)])
        | none => none
      | _ => none),
    rationale := .str "Fallback: STAY on all positions because AI was unavailable." }

/-- Whether the assistant credential is configured: API_KEY is the value
of the environment lookup (none when unset), and Python treats the empty
string as falsy (ai.py lines 80, 184). -/
def credConfigured : Option String → Bool
  | none => false
  | some s => !s.isEmpty

/-- The externally determined outcome of one assistant call attempt
(client construction, the network call, and the shape of the reply are
outside the program). toolCall carries the json.loads result of the first
tool call arguments string, none when loads raises. -/
inductive AIOutcome where
  | clientError
  | callError
  | noToolCalls
  | toolCall (argsParsed : Option JValue)

/-- ai.get_trade_recommendations (ai.py lines 174-235). Every assistant
failure path collapses to _fallback_trades; a toolCall whose arguments
parse to a dict with a list under trades is returned as-is, with the
default rationale when absent. The only way the function can raise is
through _fallback_trades itself (impossible on validated payloads);
_build_user_message is total on dict payloads and is not modelled. -/
def get_trade_recommendations (apiKey : Option String) (outcome : AIOutcome)
    (tick_payload : JValue) : Except PyErr RecResult :=
  if !credConfigured apiKey then _fallback_trades tick_payload
  else
    match outcome with
    | .clientError => _fallback_trades tick_payload
    | .callError => _fallback_trades tick_payload
    | .noToolCalls => _fallback_trades tick_payload
    | .toolCall argsParsed =>
      match argsParsed with
      | some (.obj kvs) =>
        let args := JValue.obj kvs
        match (args.lookup "trades").getD (.arr []) with
        | .arr ts =>
            .ok { trades := ts,
                  rationale := (args.lookup "rationale").getD (.str "No rationale provided.") }
        | _ => _fallback_trades tick_payload
      | _ => _fallback_trades tick_payload

/-! ### business.py -/

/-- A Positions element after validation, with numeric fields already
decoded as JSON numbers (the quantity is kept as the raw number; the
source applies int() where it consumes it). Payloads whose numeric
fields are not numbers make the tick raise and are outside this typed
model, as the spec's edge policy states. -/
structure Position where
  ticker : String
  quantity : ℚ
  purchase_price : ℚ
deriving Repr

/-- A Market_Summary element; category is validated for presence but
never consumed by the business layer. -/
structure MarketRow where
  ticker : String
  current_price : ℚ
  category : String
deriving Repr

/-- The two lists of the validated payload that business.analyze_tick
consumes (market_history is accepted but never read there). -/
structure TickPayload where
  positions : List Position
  market_summary : List MarketRow

/-- The dict comprehension price_by_ticker (business.py lines 34, 99,
132): later rows overwrite earlier ones, so the binding of a ticker is
its last row in list order. -/
def priceByTicker (market_summary : List MarketRow) (t : String) : Option ℚ :=
  (market_summary.reverse.find? (fun m => m.ticker == t)).map (fun m => m.current_price)

/-- One record of the positions-snapshot file (business.py lines 41-48
and 136-141): the ticker is kept verbatim (a JSON value in the
reconciliation path), quantity passed through int(), purchase price
through float(), and the joined current price or null. -/
structure Snap where
  ticker : JValue
  quantity : ℤ
  purchase_price : ℚ
  current_price : Option ℚ
deriving Repr

/-- The state of the two persisted JSON files. The positions file is
only ever written wholesale by analyze_tick; the history file is kept as
a raw JSON value because _read_json_list re-parses it. none models an
absent, unreadable or undecodable file. -/
structure StoreState where
  positionsFile : Option (List Snap)
  historyFile : Option JValue

/-- business._read_json_list (business.py lines 17-27): an absent,
unreadable, undecodable or non-list file reads as the empty list. -/
def _read_json_list : Option JValue → List JValue
  | some (.arr xs) => xs
  | _ => []

/-- The P&L loop of analyze_tick (business.py lines 101-111): fold over
positions, counting and accumulating only those whose ticker has a
price, with the quantity truncated by int(). -/
def pnlStats (pm : String → Option ℚ) (positions : List Position) : ℕ × ℚ :=
  positions.foldl (fun acc pos =>
    match pm pos.ticker with
    | some current => (acc.1 + 1, acc.2 + (current - pos.purchase_price) * (ratTrunc pos.quantity : ℚ))
    | none => acc) (0, 0)

/-- business._build_positions_snapshot (business.py lines 33-49): the
append loop building one record per position with the joined price. -/
def _build_positions_snapshot (positions : List Position)
    (market_summary : List MarketRow) : List Snap :=
  let price_by_ticker := priceByTicker market_summary
  positions.foldl (fun snapshot pos =>
    snapshot ++ [{ ticker := .str pos.ticker,
                   quantity := ratTrunc pos.quantity,
                   purchase_price := pos.purchase_price,
                   current_price := price_by_ticker pos.ticker }]) []

/-- The history entry dict appended per tick (business.py lines 56-59). -/
def histEntry (trade_recs : List JValue) (rationale : JValue) : JValue :=
  .obj [("ai_recommendations", .arr trade_recs), ("rationale", rationale)]

/-- business._append_trade_log (business.py lines 51-61), returning the
new file contents: read the current list, append one entry, write back. -/
def _append_trade_log (file : Option JValue) (trade_recs : List JValue)
    (rationale : JValue) : JValue :=
  let history := _read_json_list file
  let entry := histEntry trade_recs rationale
  .arr (history ++ [entry])

/-- The externally determined outcome of the POST to the mothership:
either the transport raises (timeout, DNS, connection refused), or an
HTTP response arrives with a status code and a body whose JSON parse
result is given (none when r.json() raises). -/
inductive MothershipOutcome where
  | transportError
  | response (status : ℚ) (parsed : Option JValue)

/-- business._post_trades_to_mothership (business.py lines 63-85), given
the response of the exchange. trade_id and trades form the posted
request body and do not influence the normalized result. A non-JSON body
is replaced by a synthesized error dict; the status annotation is a dict
item assignment (both branches of the source if assign r.status_code)
and raises a TypeError when the parsed body is not a dict. -/
def _post_trades_to_mothership (trade_id : String) (trades : List JValue)
    (status : ℚ) (parsed : Option JValue) : Except PyErr JValue :=
  let data : JValue :=
    match parsed with
    | some v => v
    | none => .obj [("error", .str s!"Non-JSON response from mothership (status {status})")]
  jSetItem data "_http_status" (.num status)

/-- Python price_by_ticker.get(key) for an arbitrary key value: strings
look up the join, unhashable keys (lists, dicts) raise, other hashable
values match no string key. -/
def pyDictGet (pm : String → Option ℚ) : JValue → Except PyErr (Option ℚ)
  | .arr _ => .error .typeError
  | .obj _ => .error .typeError
  | .str t => .ok (pm t)
  | _ => .ok none

/-- The reconciliation loop over the returned Positions (business.py
lines 133-141): each element is subscripted for ticker, quantity and
purchase_price, coerced by int()/float(), and re-joined with the price
map of this tick; the first failure raises out of the loop. -/
def reconcileLoop (pm : String → Option ℚ) : List JValue → Except PyErr (List Snap)
  | [] => .ok []
  | p :: rest => do
    let tk ← jGetItem p "ticker"
    let cp ← pyDictGet pm tk
    let qv ← jGetItem p "quantity"
    let q ← pyInt qv
    let ppv ← jGetItem p "purchase_price"
    let pp ← pyFloat ppv
    let merged ← reconcileLoop pm rest
    .ok ({ ticker := tk, quantity := q, purchase_price := pp, current_price := cp } :: merged)

/-- Removal of the _http_status key for the returned body (business.py
line 150). Its call site always receives a dict, because
_post_trades_to_mothership raises on non-dicts. -/
def jRemoveKey (v : JValue) (k : String) : JValue :=
  match v with
  | .obj kvs => .obj (kvs.filter (fun kv => kv.1 != k))
  | _ => v

/-- The result dict of analyze_tick (business.py lines 144-152). -/
structure TickResult where
  positions_evaluated : ℕ
  unrealized_pnl : ℚ
  decisions : List JValue
  mothership_response : JValue
  http_status_mothership : Option JValue
deriving Repr

/-- business.analyze_tick (business.py lines 87-153). The AI step result
and the mothership exchange outcome are parameters (they are external
effects); the function returns the response value or the propagated
exception, together with the file state at return or raise time. -/
def analyze_tick (payload : TickPayload) (trade_id : String) (aiOut : RecResult)
    (ms : MothershipOutcome) (st : StoreState) :
    Except PyErr TickResult × StoreState :=
  let pm := priceByTicker payload.market_summary
  let stats := pnlStats pm payload.positions
  let snapshot := _build_positions_snapshot payload.positions payload.market_summary
  let st1 : StoreState := { st with positionsFile := some snapshot }
  let trades := aiOut.trades
  let rationale := aiOut.rationale
  let st2 : StoreState :=
    { st1 with historyFile := some (_append_trade_log st1.historyFile trades rationale) }
  match ms with
  | .transportError => (.error .transport, st2)
  | .response status parsed =>
    match _post_trades_to_mothership trade_id trades status parsed with
    | .error e => (.error e, st2)
    | .ok mresp =>
      let step3 : Except PyErr StoreState :=
        if (match mresp.lookup "_http_status" with
            | some (.num q) => decide (q = 200)
            | _ => false)
           && (mresp.lookup "Positions").isSome then
          match pyIter ((mresp.lookup "Positions").getD .null) with
          | .error e => .error e
          | .ok items =>
            match reconcileLoop pm items with
            | .error e => .error e
            | .ok merged => .ok { st2 with positionsFile := some merged }
        else .ok st2
      match step3 with
      | .error e => (.error e, st2)
      | .ok st3 =>
        (.ok { positions_evaluated := stats.1,
               unrealized_pnl := pyRound4 stats.2,
               decisions := trades,
               mothership_response := jRemoveKey mresp "_http_status",
               http_status_mothership := mresp.lookup "_http_status" }, st3)

/-- One tick request with its external-world parameters, for iterating
the pipeline. -/
structure TickIn where
  payload : TickPayload
  trade_id : String
  ai : RecResult
  ms : MothershipOutcome

/-- Sequential processing of a list of tick requests, threading the file
state (each request reads the files the previous one left behind). -/
def runTicks (inputs : List TickIn) (st : StoreState) : StoreState :=
  inputs.foldl (fun s i => (analyze_tick i.payload i.trade_id i.ai i.ms s).2) st

/-! ### app.py -/

/-- The JSON reply of the /tick route: HTTP status, the result field,
the message field of failure replies, and the analyze_tick result dict
on success. -/
structure HttpReply where
  status : ℤ
  result : String
  message : String
  body : Option TickResult

/-- The post-auth body of app.tick (app.py lines 73-90): validate, then
run the processing pipeline inside try/except. proc is the pipeline on
the file state (analyze_tick applied to the decoded payload); on a pass,
an exception becomes a 500 failure reply, and the reply carries the
state at raise time (writes already on disk stay). The source prefixes
the exception text with Processing error; the constant prefix stands for
that message here. -/
def tick (raw : JValue) (proc : StoreState → Except PyErr TickResult × StoreState)
    (st : StoreState) : HttpReply × StoreState :=
  match validate_tick_payload raw with
  | (false, msg) => ({ status := 400, result := "failure", message := msg, body := none }, st)
  | (true, _) =>
    match proc st with
    | (.ok r, st') => ({ status := 200, result := "success", message := "", body := some r }, st')
    | (.error _, st') => ({ status := 500, result := "failure", message := "Processing error", body := none }, st')

/-! ### Spec-side definition for refinement comparison -/

/-- Modelled from the spec's words (section 8, first bullet, and claim
C1), not from the source: the claimed P&L value, the sum over all
positions of (current minus purchase) times the raw quantity, rounded to
4 decimals. To be compared with what analyze_tick computes. -/
def specUnrealizedPnl (payload : TickPayload) : ℚ :=
  pyRound4 ((payload.positions.map (fun pos =>
    (((priceByTicker payload.market_summary pos.ticker).getD 0) - pos.purchase_price)
      * pos.quantity)).sum)

/-! ### Concrete sample data (the scenario of spec section 8) -/

/-- The sample tick payload of the spec scenario, as a JSON value. -/
def samplePayload : JValue := .obj [
  ("Positions", .arr [.obj [("ticker", .str "X"), ("quantity", .num 10), ("purchase_price", .num 100)]]),
  ("Market_Summary", .arr [.obj [("ticker", .str "X"), ("current_price", .num 110), ("category", .str "low")]]),
  ("market_history", .arr [.obj [("ticker", .str "X"), ("price", .num 105), ("day", .str "2025-01-01")]])]

/-- The sample payload in the typed view consumed by analyze_tick. -/
def sampleTick : TickPayload := ⟨[⟨"X", 10, 100⟩], [⟨"X", 110, "low"⟩]⟩

/-- An AI step result with no trades, for exercising the pipeline. -/
def sampleAI : RecResult := ⟨[], .str ""⟩

/-- The result analyze_tick computes on the sample payload when the
mothership answers 500 with a non-JSON body. -/
def sampleResult : TickResult :=
  { positions_evaluated := 1, unrealized_pnl := 100, decisions := [],
    mothership_response := .obj [("error", .str "Non-JSON response from mothership (status 500)")],
    http_status_mothership := some (.num 500) }

/-- The file state analyze_tick leaves behind in that same run, starting
from absent files. -/
def sampleFinalState : StoreState :=
  { positionsFile := some [{ ticker := .str "X", quantity := 10, purchase_price := 100,
                             current_price := some 110 }],
    historyFile := some (.arr [.obj [("ai_recommendations", .arr []), ("rationale", .str "")]]) }

/-! ### Helper lemmas -/

/-- A successful lookup forces the value to be an object. -/
theorem lookup_isObj {v : JValue} {k : String} {x : JValue}
    (h : v.lookup k = some x) : ∃ kvs, v = .obj kvs := by
  cases v <;> simp [JValue.lookup] at h ⊢

/-- Looking up the assigned key after a dict item assignment yields the
assigned value. -/
theorem lookup_setKey_self (kvs : List (String × JValue)) (k : String) (v : JValue) :
    (JValue.obj (setKey kvs k v)).lookup k = some v := by
  induction kvs with
  | nil => simp [setKey, JValue.lookup]
  | cons kv rest ih =>
    by_cases h : kv.1 = k
    · simp [setKey, h, JValue.lookup]
    · simpa [setKey, h, JValue.lookup] using ih

/-- Looking up any other key after a dict item assignment is unchanged. -/
theorem lookup_setKey_ne (kvs : List (String × JValue)) (k : String) (v : JValue)
    (k' : String) (hne : k' ≠ k) :
    (JValue.obj (setKey kvs k v)).lookup k' = (JValue.obj kvs).lookup k' := by
  induction kvs with
  | nil => simp [setKey, JValue.lookup, Ne.symm hne]
  | cons kv rest ih =>
    obtain ⟨a, b⟩ := kv
    simp only [JValue.lookup, setKey] at ih ⊢
    by_cases h : a = k
    · simp [h, Ne.symm hne, List.find?_cons]
    · by_cases h' : a = k'
      · simp [h, h', hne, List.find?_cons]
      · simpa [h, h', hne, List.find?_cons] using ih

/-- The snapshot append loop is the map over positions with the joined
price (the characterization claim C7 asserts). -/
theorem build_snapshot_eq_map (positions : List Position) (ms : List MarketRow) :
    _build_positions_snapshot positions ms
      = positions.map (fun pos =>
          { ticker := .str pos.ticker,
            quantity := ratTrunc pos.quantity,
            purchase_price := pos.purchase_price,
            current_price := priceByTicker ms pos.ticker }) := by
  have aux : ∀ (ps : List Position) (init : List Snap),
      ps.foldl (fun snapshot pos =>
        snapshot ++ [{ ticker := .str pos.ticker,
                       quantity := ratTrunc pos.quantity,
                       purchase_price := pos.purchase_price,
                       current_price := priceByTicker ms pos.ticker }]) init
        = init ++ ps.map (fun pos =>
            { ticker := .str pos.ticker,
              quantity := ratTrunc pos.quantity,
              purchase_price := pos.purchase_price,
              current_price := priceByTicker ms pos.ticker }) := by
    intro ps
    induction ps with
    | nil => simp
    | cons pos rest ih => intro init; simp [ih]
  simpa [_build_positions_snapshot] using aux positions []

/-- A position with no matching price leaves the P&L accumulator alone,
wherever it sits in the list. -/
theorem pnlStats_skip (pm : String → Option ℚ) (l1 l2 : List Position)
    (pos : Position) (h : pm pos.ticker = none) :
    pnlStats pm (l1 ++ pos :: l2) = pnlStats pm (l1 ++ l2) := by
  simp only [pnlStats, List.foldl_append, List.foldl_cons, h]

/-- The P&L fold with every ticker matched: counts the whole list and
accumulates the sum of the per-position terms, from any accumulator. -/
theorem pnl_fold_aux (pm : String → Option ℚ) (ps : List Position) :
    ∀ acc : ℕ × ℚ, (∀ pos ∈ ps, (pm pos.ticker).isSome) →
    ps.foldl (fun acc pos =>
      match pm pos.ticker with
      | some current => (acc.1 + 1, acc.2 + (current - pos.purchase_price) * (ratTrunc pos.quantity : ℚ))
      | none => acc) acc
      = (acc.1 + ps.length,
         acc.2 + (ps.map (fun pos =>
           (((pm pos.ticker).getD 0) - pos.purchase_price) * (ratTrunc pos.quantity : ℚ))).sum) := by
  induction ps with
  | nil => intro acc _; simp
  | cons pos rest ih =>
    intro acc h
    obtain ⟨c, hc⟩ := Option.isSome_iff_exists.mp (h pos (by simp))
    have hrest : ∀ q ∈ rest, (pm q.ticker).isSome := fun q hq => h q (by simp [hq])
    simp only [List.foldl_cons, hc, ih _ hrest, List.map_cons, List.sum_cons, List.length_cons,
      Prod.mk.injEq]
    exact ⟨by omega, by simp [hc]; ring⟩

/-- pnlStats when every position ticker has a price. -/
theorem pnlStats_all_matched (pm : String → Option ℚ) (ps : List Position)
    (h : ∀ pos ∈ ps, (pm pos.ticker).isSome) :
    pnlStats pm ps
      = (ps.length,
         (ps.map (fun pos =>
           (((pm pos.ticker).getD 0) - pos.purchase_price) * (ratTrunc pos.quantity : ℚ))).sum) := by
  simpa [pnlStats] using pnl_fold_aux pm ps (0, 0) h

/-- analyze_tick under a transport failure of the submission: the
exception propagates and the state holds the snapshot write and the
history append performed before the POST. -/
theorem analyze_transport (p : TickPayload) (tid : String) (ai : RecResult) (st : StoreState) :
    analyze_tick p tid ai .transportError st
      = (.error .transport,
         { positionsFile := some (_build_positions_snapshot p.positions p.market_summary),
           historyFile := some (_append_trade_log st.historyFile ai.trades ai.rationale) }) := rfl

/-- Every tick appends exactly one history entry, whatever the
submission outcome: the history file afterwards is the previously stored
entries followed by this tick's entry. -/
theorem analyze_history (p : TickPayload) (tid : String) (ai : RecResult)
    (ms : MothershipOutcome) (st : StoreState) :
    (analyze_tick p tid ai ms st).2.historyFile
      = some (.arr (_read_json_list st.historyFile
          ++ [histEntry ai.trades ai.rationale])) := by
  cases ms with
  | transportError => rfl
  | response status parsed =>
    simp only [analyze_tick]
    split
    · rfl
    · split
      · rfl
      · rename_i st3 heq
        split at heq
        · split at heq
          · simp at heq
          · split at heq
            · simp at heq
            · rw [Except.ok.injEq] at heq; subst heq; rfl
        · rw [Except.ok.injEq] at heq; subst heq; rfl

/-- When analyze_tick returns a result, its summary fields are the P&L
fold of this payload and its decisions are the trades of the AI step. -/
theorem analyze_ok_summary (p : TickPayload) (tid : String) (ai : RecResult)
    (ms : MothershipOutcome) (st : StoreState) (r : TickResult) (st' : StoreState)
    (h : analyze_tick p tid ai ms st = (.ok r, st')) :
    r.positions_evaluated = (pnlStats (priceByTicker p.market_summary) p.positions).1 ∧
    r.unrealized_pnl = pyRound4 (pnlStats (priceByTicker p.market_summary) p.positions).2 ∧
    r.decisions = ai.trades := by
  cases ms with
  | transportError => simp [analyze_tick] at h
  | response status parsed =>
    simp only [analyze_tick] at h
    split at h
    · simp at h
    · split at h
      · simp at h
      · rw [Prod.mk.injEq] at h
        obtain ⟨h1, _⟩ := h
        rw [Except.ok.injEq] at h1
        subst h1
        exact ⟨rfl, rfl, rfl⟩

/-- A passed field-presence loop means every listed field is present. -/
theorem checkFields_none (ctx : String) (idx : Nat) (v : JValue) :
    ∀ fs : List String, checkFields ctx idx v fs = none →
      ∀ f ∈ fs, (v.lookup f).isSome := by
  intro fs
  induction fs with
  | nil => intro _ f hf; simp at hf
  | cons f fs ih =>
    intro h g hg
    simp only [checkFields] at h
    split at h
    · rename_i hf
      rcases List.mem_cons.mp hg with rfl | hg'
      · exact hf
      · exact ih h g hg'
    · simp at h

/-- A passed Positions item loop means every element is a dict holding a
ticker key (and the other two fields, not needed below). -/
theorem checkPositionsItems_none :
    ∀ (ps : List JValue) (idx : Nat), checkPositionsItems idx ps = none →
      ∀ p ∈ ps, (∃ kvs, p = .obj kvs) ∧ (p.lookup "ticker").isSome := by
  intro ps
  induction ps with
  | nil => intro _ _ p hp; simp at hp
  | cons q rest ih =>
    intro idx h p hp
    cases q with
    | obj kvs =>
      simp only [checkPositionsItems] at h
      split at h
      · simp at h
      · rename_i hcf
        rcases List.mem_cons.mp hp with rfl | hp'
        · exact ⟨⟨kvs, rfl⟩, checkFields_none _ _ _ _ hcf "ticker" (by simp)⟩
        · exact ih (idx + 1) h p hp'
    | null => simp [checkPositionsItems] at h
    | bool b => simp [checkPositionsItems] at h
    | num q => simp [checkPositionsItems] at h
    | str s => simp [checkPositionsItems] at h
    | arr xs => simp [checkPositionsItems] at h

/-- A passed required-keys loop means each listed key maps to a list. -/
theorem requiredListsCheck_none :
    ∀ (ks : List String) (payload : JValue), requiredListsCheck payload ks = none →
      ∀ k ∈ ks, ∃ xs, payload.lookup k = some (.arr xs) := by
  intro ks
  induction ks with
  | nil => intro _ _ k hk; simp at hk
  | cons k ks ih =>
    intro payload h g hg
    simp only [requiredListsCheck] at h
    cases hl : payload.lookup k with
    | none => rw [hl] at h; simp at h
    | some v =>
      rw [hl] at h
      cases v with
      | arr xs =>
        rcases List.mem_cons.mp hg with rfl | hg'
        · exact ⟨xs, hl⟩
        · exact ih payload h g hg'
      | null => simp at h
      | bool b => simp at h
      | num q => simp at h
      | str s => simp at h
      | obj kvs => simp at h

/-- A payload that validates is a dict whose required keys hold lists and
whose Positions elements pass the item checks. -/
theorem validate_true_parts {v : JValue} (h : (validate_tick_payload v).1 = true) :
    (∃ kvs, v = .obj kvs) ∧
    requiredListsCheck v ["Positions", "Market_Summary", "market_history"] = none ∧
    checkPositionsItems 0 (jArr v "Positions") = none := by
  cases v with
  | obj kvs =>
    refine ⟨⟨kvs, rfl⟩, ?_⟩
    simp only [validate_tick_payload] at h
    split at h
    · simp at h
    · rename_i hreq
      split at h
      · simp at h
      · rename_i hpos
        exact ⟨hreq, hpos⟩
  | null => simp [validate_tick_payload] at h
  | bool b => simp [validate_tick_payload] at h
  | num q => simp [validate_tick_payload] at h
  | str s => simp [validate_tick_payload] at h
  | arr xs => simp [validate_tick_payload] at h

/-- The fallback comprehension keeps every element when all elements are
dicts containing a ticker key. -/
theorem stay_filterMap_eq_map (ps : List JValue)
    (h : ∀ p ∈ ps, (∃ kvs, p = .obj kvs) ∧ (p.lookup "ticker").isSome) :
    (ps.filterMap (fun p =>
      match p with
      | JValue.obj kvs =>
        match (JValue.obj kvs).lookup "ticker" with
        | some tv => some (JValue.obj [("action", JValue.str "STAY"), ("ticker", tv), ("quantity", JValue.num 0)])
        | none => none
      | _ => none))
    = ps.map (fun p =>
        JValue.obj [("action", JValue.str "STAY"), ("ticker", (p.lookup "ticker").getD JValue.null),
          ("quantity", JValue.num 0)]) := by
  induction ps with
  | nil => rfl
  | cons p rest ih =>
    obtain ⟨⟨kvs, hp⟩, ht⟩ := h p (List.mem_cons_self p rest)
    subst hp
    obtain ⟨tv, htv⟩ := Option.isSome_iff_exists.mp ht
    have hrest : ∀ q ∈ rest, (∃ kvs, q = JValue.obj kvs) ∧ (q.lookup "ticker").isSome :=
      fun q hq => h q (List.mem_cons_of_mem _ hq)
    simp only [List.filterMap_cons, List.map_cons, htv, Option.getD_some, ih hrest]

/-- On a payload that validates, _fallback_trades returns, without
raising, exactly one STAY trade with quantity 0 per Positions element,
in payload order, with the fixed fallback rationale. -/
theorem fallback_of_validated {raw : JValue} (h : (validate_tick_payload raw).1 = true) :
    ∃ ps, raw.lookup "Positions" = some (.arr ps) ∧
      _fallback_trades raw = .ok {
        trades := ps.map (fun p =>
          .obj [("action", .str "STAY"), ("ticker", (p.lookup "ticker").getD .null), ("quantity", .num 0)]),
        rationale := .str "Fallback: STAY on all positions because AI was unavailable." } := by
  obtain ⟨⟨kvs, hv⟩, hreq, hposs⟩ := validate_true_parts h
  subst hv
  obtain ⟨ps, hps⟩ := requiredListsCheck_none _ _ hreq "Positions" (by simp)
  refine ⟨ps, hps, ?_⟩
  have harr : jArr (JValue.obj kvs) "Positions" = ps := by simp [jArr, hps]
  rw [harr] at hposs
  have hitems := checkPositionsItems_none ps 0 hposs
  simp only [_fallback_trades, pyDictGetD, hps, Option.getD_some, Bind.bind, Except.bind, pyIter,
    stay_filterMap_eq_map ps hitems]

/-- An object payload whose Positions and Market_Summary keys hold lists
but which lacks market_history fails validation with exactly the message
naming market_history. -/
theorem validate_missing_history {v : JValue} {ps msum : List JValue}
    (hp : v.lookup "Positions" = some (.arr ps))
    (hm : v.lookup "Market_Summary" = some (.arr msum))
    (hh : v.lookup "market_history" = none) :
    validate_tick_payload v = (false, "Missing required field: market_history") := by
  obtain ⟨kvs, hv⟩ := lookup_isObj hp
  subst hv
  simp only [validate_tick_payload, requiredListsCheck, hp, hm, hh]
  rfl

/-- The reconciliation loop on a list of returned positions that are
dicts with a string ticker and numeric quantity and purchase price:
succeeds and produces one record per element with the re-joined price. -/
theorem reconcileLoop_typed (pm : String → Option ℚ)
    (items : List JValue) (specs : List (String × ℚ × ℚ))
    (h : List.Forall₂ (fun v w =>
        v.lookup "ticker" = some (.str w.1) ∧
        v.lookup "quantity" = some (.num w.2.1) ∧
        v.lookup "purchase_price" = some (.num w.2.2)) items specs) :
    reconcileLoop pm items = .ok (specs.map (fun w =>
      { ticker := .str w.1, quantity := ratTrunc w.2.1,
        purchase_price := w.2.2, current_price := pm w.1 })) := by
  induction h with
  | nil => rfl
  | cons hvw hrest ih =>
    rename_i v w items' specs'
    obtain ⟨ht, hq, hp⟩ := hvw
    obtain ⟨kvs, hv⟩ := lookup_isObj ht
    subst hv
    simp only [reconcileLoop, jGetItem, ht, hq, hp, Bind.bind, Except.bind, pyDictGet, pyInt,
      pyFloat, ih, List.map_cons]

/-- find? ignores a filter that keeps everything the predicate accepts. -/
theorem find?_filter_of_imp {α : Type} (p q : α → Bool) (himp : ∀ x, p x = true → q x = true) :
    ∀ l : List α, (l.filter q).find? p = l.find? p := by
  intro l
  induction l with
  | nil => rfl
  | cons x xs ih =>
    by_cases hq : q x = true
    · rw [List.filter_cons_of_pos hq]
      by_cases hp : p x = true
      · rw [List.find?_cons_of_pos _ hp, List.find?_cons_of_pos _ hp]
      · rw [List.find?_cons_of_neg _ hp, List.find?_cons_of_neg _ hp, ih]
    · have hp : ¬ p x = true := fun hpx => hq (himp x hpx)
      rw [List.filter_cons_of_neg hq, List.find?_cons_of_neg _ hp, ih]

/-- With no later row for the same ticker, the price map binds a ticker
to the current price of its last row. -/
theorem priceByTicker_append_last (ms1 : List MarketRow) (m : MarketRow) (ms2 : List MarketRow)
    (h : ∀ m' ∈ ms2, m'.ticker ≠ m.ticker) :
    priceByTicker (ms1 ++ m :: ms2) m.ticker = some m.current_price := by
  have h2 : ms2.reverse.find? (fun mr => mr.ticker == m.ticker) = none := by
    rw [List.find?_eq_none]
    intro x hx
    simp [h x (List.mem_reverse.mp hx)]
  simp [priceByTicker, List.find?_append, h2]

/-- Dropping the earlier rows of a duplicated ticker does not change the
price map at all: only the last row of each ticker is consulted. -/
theorem priceByTicker_drop_earlier (ms1 : List MarketRow) (m : MarketRow) (ms2 : List MarketRow)
    (h : ∀ m' ∈ ms2, m'.ticker ≠ m.ticker) :
    priceByTicker (ms1 ++ m :: ms2)
      = priceByTicker (ms1.filter (fun mr => !(mr.ticker == m.ticker)) ++ m :: ms2) := by
  funext t
  by_cases ht : t = m.ticker
  · subst ht
    rw [priceByTicker_append_last _ _ _ h, priceByTicker_append_last _ _ _ h]
  · simp only [priceByTicker, List.reverse_append, List.reverse_cons, List.find?_append]
    have hfilter : ((ms1.filter (fun mr => !(mr.ticker == m.ticker))).reverse).find?
        (fun mr => mr.ticker == t) = (ms1.reverse).find? (fun mr => mr.ticker == t) := by
      rw [← List.filter_reverse]
      exact find?_filter_of_imp _ _
        (fun x hx => by
          simp only [beq_iff_eq] at hx
          simp [hx, ht]) ms1.reverse
    rw [hfilter]

/-- analyze_tick reads the market summary only through the price map, so
two summaries with the same price map are interchangeable. -/
theorem analyze_congr_pm (pos : List Position) (ms ms' : List MarketRow)
    (h : priceByTicker ms = priceByTicker ms') (tid : String) (ai : RecResult)
    (out : MothershipOutcome) (st : StoreState) :
    analyze_tick ⟨pos, ms⟩ tid ai out st = analyze_tick ⟨pos, ms'⟩ tid ai out st := by
  simp only [analyze_tick, build_snapshot_eq_map, h]

/-- Running a list of ticks in sequence appends exactly their history
entries, in order, after whatever the history file already decoded to. -/
theorem runTicks_history (inputs : List TickIn) :
    ∀ st : StoreState, _read_json_list (runTicks inputs st).historyFile
      = _read_json_list st.historyFile
        ++ inputs.map (fun i => histEntry i.ai.trades i.ai.rationale) := by
  induction inputs with
  | nil => intro st; simp [runTicks]
  | cons i rest ih =>
    intro st
    have hstep := analyze_history i.payload i.trade_id i.ai i.ms st
    simp only [runTicks, List.foldl_cons] at *
    rw [ih, hstep]
    simp [_read_json_list]

/-! ### The claims -/

/-- Claim C1, counterexample: the claim computes the P&L with the raw
quantity, but analyze_tick passes the quantity through int(), which
truncates toward zero. For the validated payload with one position of
quantity 2.5, purchase price 1 and current price 2 (its only ticker is
matched), the code returns 2 while the claimed sum is 2.5, so the claim
as stated is false. -/
theorem C1_counterexample :
    ((analyze_tick ⟨[⟨"A", 5/2, 1⟩], [⟨"A", 2, "low"⟩]⟩ "t" ⟨[], .str ""⟩
        (.response 500 none) ⟨none, none⟩).1.map TickResult.unrealized_pnl) = .ok 2
    ∧ specUnrealizedPnl ⟨[⟨"A", 5/2, 1⟩], [⟨"A", 2, "low"⟩]⟩ = 5/2
    ∧ (2 : ℚ) ≠ 5/2 := ⟨rfl, rfl, by norm_num⟩

/-- Claim C1 as amended: for every payload in which every Positions
element's ticker appears in Market_Summary, whenever analyze_tick
returns a result its summary holds positions_evaluated equal to the
number of Positions and unrealized_pnl equal to the sum over all
Positions of (current_price - purchase_price) * int(quantity) — the
quantity truncated toward zero by the int() coercion — rounded to 4
decimal places. -/
theorem C1_amended (p : TickPayload) (tid : String) (ai : RecResult)
    (ms : MothershipOutcome) (st : StoreState) (r : TickResult) (st' : StoreState)
    (hok : analyze_tick p tid ai ms st = (.ok r, st'))
    (hall : ∀ pos ∈ p.positions, (priceByTicker p.market_summary pos.ticker).isSome) :
    r.positions_evaluated = p.positions.length ∧
    r.unrealized_pnl = pyRound4 ((p.positions.map (fun pos =>
      (((priceByTicker p.market_summary pos.ticker).getD 0) - pos.purchase_price)
        * (ratTrunc pos.quantity : ℚ))).sum) := by
  obtain ⟨h1, h2, _⟩ := analyze_ok_summary p tid ai ms st r st' hok
  rw [pnlStats_all_matched _ _ hall] at h1 h2
  exact ⟨h1, h2⟩

/-- Witness for C1_amended: on the spec's sample payload (one position X
with quantity 10, purchase 100, current 110), the returned summary
counts 1 position and reports 100 as P&L. -/
theorem C1_witness :
    sampleResult.positions_evaluated = sampleTick.positions.length ∧
    sampleResult.unrealized_pnl = pyRound4 ((sampleTick.positions.map (fun pos =>
      (((priceByTicker sampleTick.market_summary pos.ticker).getD 0) - pos.purchase_price)
        * (ratTrunc pos.quantity : ℚ))).sum) :=
  C1_amended sampleTick "t" sampleAI (.response 500 none) ⟨none, none⟩
    sampleResult sampleFinalState rfl (by decide)

/-- Claim C2: on a payload that validates, get_trade_recommendations
never raises, whatever the credential and whatever the assistant call
does; and whenever no assistant credential is configured it returns
exactly one STAY trade with quantity 0 per Positions element, carrying
that element's ticker, in payload order, with the fixed fallback
rationale (the ∃ names the Positions list of the payload). -/
theorem C2_theorem (raw : JValue) (hval : (validate_tick_payload raw).1 = true) :
    (∀ (k : Option String) (o : AIOutcome),
      (get_trade_recommendations k o raw).isOk = true)
    ∧ ∀ (apiKey : Option String) (outcome : AIOutcome),
        credConfigured apiKey = false →
        ∃ ps, raw.lookup "Positions" = some (.arr ps) ∧
          get_trade_recommendations apiKey outcome raw = .ok {
            trades := ps.map (fun p => .obj [("action", .str "STAY"),
              ("ticker", (p.lookup "ticker").getD .null), ("quantity", .num 0)]),
            rationale := .str "Fallback: STAY on all positions because AI was unavailable." } := by
  obtain ⟨ps, hps, hfb⟩ := fallback_of_validated hval
  have hfbok : (_fallback_trades raw).isOk = true := by rw [hfb]; rfl
  constructor
  · intro k o
    by_cases hk : credConfigured k
    · simp only [get_trade_recommendations, hk, Bool.not_true, Bool.false_eq_true, if_false]
      cases o with
      | clientError => exact hfbok
      | callError => exact hfbok
      | noToolCalls => exact hfbok
      | toolCall parsed =>
        cases parsed with
        | none => exact hfbok
        | some v =>
          cases v with
          | obj kvs =>
            simp only
            split
            · rfl
            · exact hfbok
          | null => exact hfbok
          | bool b => exact hfbok
          | num q => exact hfbok
          | str s => exact hfbok
          | arr xs => exact hfbok
    · have hk' : credConfigured k = false := by
        cases h : credConfigured k
        · rfl
        · exact absurd h hk
      simp only [get_trade_recommendations, hk', Bool.not_false, if_true]
      exact hfbok
  · intro apiKey outcome hcred
    refine ⟨ps, hps, ?_⟩
    simpa [get_trade_recommendations, hcred] using hfb

/-- Witness for C2: on the spec's sample payload with no credential, the
recommendation step returns the single STAY/0 trade on ticker X with
the fallback rationale, raising nothing. -/
theorem C2_witness :
    credConfigured none = false ∧ (validate_tick_payload samplePayload).1 = true ∧
    (get_trade_recommendations (some "sk-key") (.toolCall (some (.num 3))) samplePayload).isOk
      = true ∧
    get_trade_recommendations none .noToolCalls samplePayload = .ok {
      trades := [.obj [("action", .str "STAY"), ("ticker", .str "X"), ("quantity", .num 0)]],
      rationale := .str "Fallback: STAY on all positions because AI was unavailable." } := by
  refine ⟨rfl, rfl, (C2_theorem samplePayload rfl).1 (some "sk-key") (.toolCall (some (.num 3))), ?_⟩
  obtain ⟨ps, hps, hfb⟩ := (C2_theorem samplePayload rfl).2 none .noToolCalls rfl
  have hconc : samplePayload.lookup "Positions"
      = some (.arr [.obj [("ticker", .str "X"), ("quantity", .num 10),
                          ("purchase_price", .num 100)]]) := rfl
  rw [hconc] at hps
  obtain ⟨rfl⟩ : ps = [.obj [("ticker", .str "X"), ("quantity", .num 10),
      ("purchase_price", .num 100)]] := by
    cases hps with | refl => rfl
  simpa using hfb

/-- Claim C3: the trade history store is append-only. Every tick,
whatever its submission outcome, leaves the history file equal to the
previously stored entries followed by exactly this tick's entry
(ai_recommendations and rationale); the trades of that entry are the
trades handed to the submission step (the decisions of the returned
result); and after running N ticks from an absent file the store holds
exactly their N entries in submission order. -/
theorem C3_theorem :
    (∀ (p : TickPayload) (tid : String) (ai : RecResult) (ms : MothershipOutcome) (st : StoreState),
      (analyze_tick p tid ai ms st).2.historyFile
        = some (.arr (_read_json_list st.historyFile ++ [histEntry ai.trades ai.rationale])) ∧
      ∀ r st', analyze_tick p tid ai ms st = (.ok r, st') → r.decisions = ai.trades)
    ∧ ∀ inputs : List TickIn,
        _read_json_list (runTicks inputs ⟨none, none⟩).historyFile
          = inputs.map (fun i => histEntry i.ai.trades i.ai.rationale) := by
  constructor
  · intro p tid ai ms st
    exact ⟨analyze_history p tid ai ms st,
      fun r st' hok => (analyze_ok_summary p tid ai ms st r st' hok).2.2⟩
  · intro inputs
    simpa [_read_json_list] using runTicks_history inputs ⟨none, none⟩

/-- Witness for C3 on one concrete tick from empty stores: the history
file afterwards holds exactly that tick's entry, whose trades are the
decisions of the returned result. -/
theorem C3_witness :
    (analyze_tick sampleTick "t" sampleAI (.response 500 none) ⟨none, none⟩).2.historyFile
      = some (.arr (_read_json_list (none : Option JValue)
          ++ [histEntry sampleAI.trades sampleAI.rationale])) ∧
    sampleResult.decisions = sampleAI.trades ∧
    _read_json_list (runTicks [⟨sampleTick, "t", sampleAI, .response 500 none⟩]
        ⟨none, none⟩).historyFile
      = [histEntry sampleAI.trades sampleAI.rationale] :=
  ⟨(C3_theorem.1 sampleTick "t" sampleAI (.response 500 none) ⟨none, none⟩).1,
   (C3_theorem.1 sampleTick "t" sampleAI (.response 500 none) ⟨none, none⟩).2
     sampleResult sampleFinalState rfl,
   C3_theorem.2 [⟨sampleTick, "t", sampleAI, .response 500 none⟩]⟩

/-- Claim C4, counterexample: the claim says the snapshot after a 200
response with a Positions field equals the returned list with only
current_price re-attached, but the code also passes each returned
quantity through int(). With a returned position of quantity 2.5, the
stored record holds quantity 2, not the returned 2.5, so the claim as
stated is false. -/
theorem C4_counterexample :
    ((analyze_tick sampleTick "t" sampleAI
        (.response 200 (some (.obj [("Positions", .arr [.obj [("ticker", .str "A"),
          ("quantity", .num (5/2)), ("purchase_price", .num 1)]])])))
        ⟨none, none⟩).2.positionsFile)
      = some [{ ticker := .str "A", quantity := 2, purchase_price := 1, current_price := none }]
    ∧ (5/2 : ℚ) ≠ ((2 : ℤ) : ℚ) := ⟨rfl, by norm_num⟩

/-- Claim C4 as amended: when the submission response has status 200 and
its JSON body is an object whose Positions field is a list of objects
with a string ticker and numeric quantity and purchase_price, the tick
succeeds and the snapshot store afterwards holds one record per returned
element — its ticker, its quantity truncated by int(), its
purchase_price through float(), and current_price re-attached from this
tick's Market_Summary where the ticker matches (null where unmatched) —
overwriting the snapshot written earlier in the tick. -/
theorem C4_amended (p : TickPayload) (tid : String) (ai : RecResult) (st : StoreState)
    (kvs : List (String × JValue)) (items : List JValue) (specs : List (String × ℚ × ℚ))
    (hpos : (JValue.obj kvs).lookup "Positions" = some (.arr items))
    (hty : List.Forall₂ (fun v w =>
        v.lookup "ticker" = some (.str w.1) ∧
        v.lookup "quantity" = some (.num w.2.1) ∧
        v.lookup "purchase_price" = some (.num w.2.2)) items specs) :
    (analyze_tick p tid ai (.response 200 (some (.obj kvs))) st).1.isOk = true ∧
    (analyze_tick p tid ai (.response 200 (some (.obj kvs))) st).2.positionsFile
      = some (specs.map (fun w =>
          { ticker := .str w.1, quantity := ratTrunc w.2.1, purchase_price := w.2.2,
            current_price := priceByTicker p.market_summary w.1 })) := by
  have hset : _post_trades_to_mothership tid ai.trades 200 (some (.obj kvs))
      = .ok (.obj (setKey kvs "_http_status" (.num 200))) := rfl
  have hstat : (JValue.obj (setKey kvs "_http_status" (.num 200))).lookup "_http_status"
      = some (.num 200) := lookup_setKey_self kvs _ _
  have hpos' : (JValue.obj (setKey kvs "_http_status" (.num 200))).lookup "Positions"
      = some (.arr items) := by
    rw [lookup_setKey_ne kvs _ _ "Positions" (by decide), hpos]
  have hrecon := reconcileLoop_typed (priceByTicker p.market_summary) items specs hty
  simp only [analyze_tick, hset, hstat, hpos', Option.isSome_some, Option.getD_some, pyIter,
    hrecon, Bool.and_true, decide_True, if_true]
  exact ⟨rfl, trivial⟩

/-- Witness for C4_amended: a 200 response returning one position X with
quantity 7 and purchase price 104 leaves the snapshot store holding
exactly that record with current price 110 re-attached. -/
theorem C4_witness :
    (analyze_tick sampleTick "t" sampleAI (.response 200 (some (.obj [("Positions",
        .arr [.obj [("ticker", .str "X"), ("quantity", .num 7), ("purchase_price", .num 104)]])])))
      ⟨none, none⟩).1.isOk = true ∧
    (analyze_tick sampleTick "t" sampleAI (.response 200 (some (.obj [("Positions",
        .arr [.obj [("ticker", .str "X"), ("quantity", .num 7), ("purchase_price", .num 104)]])])))
      ⟨none, none⟩).2.positionsFile
      = some ([(("X" : String), (7 : ℚ), (104 : ℚ))].map (fun w =>
          { ticker := .str w.1, quantity := ratTrunc w.2.1, purchase_price := w.2.2,
            current_price := priceByTicker sampleTick.market_summary w.1 })) :=
  C4_amended sampleTick "t" sampleAI ⟨none, none⟩
    [("Positions", .arr [.obj [("ticker", .str "X"), ("quantity", .num 7),
      ("purchase_price", .num 104)]])]
    [.obj [("ticker", .str "X"), ("quantity", .num 7), ("purchase_price", .num 104)]]
    [("X", 7, 104)] rfl (List.Forall₂.cons ⟨rfl, rfl, rfl⟩ List.Forall₂.nil)

/-- Claim C5: when the trade submission raises a transport error, the
exception propagates out of analyze_tick (the tick has no success
result), the /tick request answers a 500 failure reply, and the
positions snapshot and history entry written before the submission are
still in the stores. -/
theorem C5_theorem (p : TickPayload) (tid : String) (ai : RecResult) (st : StoreState)
    (raw : JValue) (hval : (validate_tick_payload raw).1 = true) :
    (analyze_tick p tid ai .transportError st).1 = .error .transport ∧
    (analyze_tick p tid ai .transportError st).2
      = { positionsFile := some (_build_positions_snapshot p.positions p.market_summary),
          historyFile := some (_append_trade_log st.historyFile ai.trades ai.rationale) } ∧
    tick raw (fun s => analyze_tick p tid ai .transportError s) st
      = ({ status := 500, result := "failure", message := "Processing error", body := none },
         { positionsFile := some (_build_positions_snapshot p.positions p.market_summary),
           historyFile := some (_append_trade_log st.historyFile ai.trades ai.rationale) }) := by
  refine ⟨by rw [analyze_transport], by rw [analyze_transport], ?_⟩
  rcases h' : validate_tick_payload raw with ⟨b, m⟩
  rw [h'] at hval
  simp only at hval
  subst hval
  simp only [tick, h', analyze_transport]

/-- Witness for C5 on the sample payload: a transport failure yields a
500 failure reply while both writes made before the submission stay. -/
theorem C5_witness :
    (analyze_tick sampleTick "t" sampleAI .transportError ⟨none, none⟩).1 = .error .transport ∧
    (analyze_tick sampleTick "t" sampleAI .transportError ⟨none, none⟩).2
      = { positionsFile := some (_build_positions_snapshot sampleTick.positions sampleTick.market_summary),
          historyFile := some (_append_trade_log none sampleAI.trades sampleAI.rationale) } ∧
    tick samplePayload (fun s => analyze_tick sampleTick "t" sampleAI .transportError s) ⟨none, none⟩
      = ({ status := 500, result := "failure", message := "Processing error", body := none },
         { positionsFile := some (_build_positions_snapshot sampleTick.positions sampleTick.market_summary),
           historyFile := some (_append_trade_log none sampleAI.trades sampleAI.rationale) }) :=
  C5_theorem sampleTick "t" sampleAI ⟨none, none⟩ samplePayload rfl

/-- Claim C6: a Positions element whose ticker has no Market_Summary
price leaves the evaluated count and the P&L sum exactly as if it were
absent, wherever it sits in the list, and those two numbers are what
analyze_tick reports in its summary. -/
theorem C6_theorem :
    (∀ (ms : List MarketRow) (l1 l2 : List Position) (pos : Position),
      priceByTicker ms pos.ticker = none →
      pnlStats (priceByTicker ms) (l1 ++ pos :: l2) = pnlStats (priceByTicker ms) (l1 ++ l2))
    ∧ (∀ (p : TickPayload) (tid : String) (ai : RecResult) (out : MothershipOutcome)
        (st : StoreState) (r : TickResult) (st' : StoreState),
        analyze_tick p tid ai out st = (.ok r, st') →
        r.positions_evaluated = (pnlStats (priceByTicker p.market_summary) p.positions).1 ∧
        r.unrealized_pnl = pyRound4 (pnlStats (priceByTicker p.market_summary) p.positions).2) := by
  constructor
  · intro ms l1 l2 pos h
    exact pnlStats_skip _ _ _ _ h
  · intro p tid ai out st r st' hok
    obtain ⟨h1, h2, _⟩ := analyze_ok_summary p tid ai out st r st' hok
    exact ⟨h1, h2⟩

/-- Witness for C6: inserting a position on the unknown ticker A in
front of the sample position changes neither component of the fold, and
the sample run's summary equals that fold. -/
theorem C6_witness :
    pnlStats (priceByTicker [⟨"X", 110, "low"⟩]) ([] ++ ⟨"A", 5, 3⟩ :: [⟨"X", 10, 100⟩])
      = pnlStats (priceByTicker [⟨"X", 110, "low"⟩]) ([] ++ [⟨"X", 10, 100⟩]) ∧
    sampleResult.positions_evaluated
      = (pnlStats (priceByTicker sampleTick.market_summary) sampleTick.positions).1 ∧
    sampleResult.unrealized_pnl
      = pyRound4 (pnlStats (priceByTicker sampleTick.market_summary) sampleTick.positions).2 := by
  refine ⟨C6_theorem.1 [⟨"X", 110, "low"⟩] [] [⟨"X", 10, 100⟩] ⟨"A", 5, 3⟩ rfl, ?_, ?_⟩
  · exact (C6_theorem.2 sampleTick "t" sampleAI (.response 500 none) ⟨none, none⟩
      sampleResult sampleFinalState rfl).1
  · exact (C6_theorem.2 sampleTick "t" sampleAI (.response 500 none) ⟨none, none⟩
      sampleResult sampleFinalState rfl).2

/-- Claim C7, counterexample: the snapshot record does not hold the
element's quantity verbatim; int() truncates it. For quantity 2.5 the
stored record holds 2, so the claim as stated is false. -/
theorem C7_counterexample :
    _build_positions_snapshot [⟨"A", 5/2, 1⟩] [⟨"A", 2, "low"⟩]
      = [{ ticker := .str "A", quantity := 2, purchase_price := 1, current_price := some 2 }]
    ∧ (5/2 : ℚ) ≠ ((2 : ℤ) : ℚ) := ⟨rfl, by norm_num⟩

/-- Claim C7 as amended: the snapshot written on every tick holds one
record per Positions element with its ticker, its quantity truncated
toward zero by int(), its purchase_price, and its Market_Summary
current_price (null when unmatched); the write does not depend on the
AI step, and it is in place even when a later step aborts the tick
(transport failure) and whenever the response body was not JSON,
whatever its status. -/
theorem C7_amended :
    (∀ (positions : List Position) (ms : List MarketRow),
      _build_positions_snapshot positions ms = positions.map (fun pos =>
        { ticker := .str pos.ticker, quantity := ratTrunc pos.quantity,
          purchase_price := pos.purchase_price,
          current_price := priceByTicker ms pos.ticker }))
    ∧ (∀ (p : TickPayload) (tid : String) (ai : RecResult) (st : StoreState),
        (analyze_tick p tid ai .transportError st).2.positionsFile
          = some (_build_positions_snapshot p.positions p.market_summary))
    ∧ (∀ (p : TickPayload) (tid : String) (ai : RecResult) (st : StoreState) (status : ℚ),
        (analyze_tick p tid ai (.response status none) st).2.positionsFile
          = some (_build_positions_snapshot p.positions p.market_summary)) := by
  refine ⟨build_snapshot_eq_map, fun p tid ai st => by rw [analyze_transport], ?_⟩
  intro p tid ai st status
  simp only [analyze_tick, _post_trades_to_mothership, jSetItem, setKey]
  simp [JValue.lookup, List.find?]

/-- Claim C8, counterexample: a response whose body parses as JSON but
is not an object (here: status 200 with body an empty JSON array) makes
the status-annotation assignment raise a TypeError instead of returning
an annotated object, so the claim as stated is false. -/
theorem C8_counterexample :
    _post_trades_to_mothership "t" [] 200 (some (.arr [])) = .error .typeError := rfl

/-- Claim C8 as amended: for a response whose body does not parse as
JSON, _post_trades_to_mothership returns, without raising, a
synthesized error body carrying the raw HTTP status, annotated with
that status under the submission-status key; for a response whose body
parses to a JSON object, it returns that object annotated likewise (a
body parsing to a non-object JSON value instead raises a TypeError). -/
theorem C8_amended (tid : String) (trades : List JValue) (status : ℚ) :
    (_post_trades_to_mothership tid trades status none
      = .ok (.obj [("error", .str s!"Non-JSON response from mothership (status {status})"),
                   ("_http_status", .num status)]))
    ∧ (∀ kvs : List (String × JValue),
        _post_trades_to_mothership tid trades status (some (.obj kvs))
          = .ok (.obj (setKey kvs "_http_status" (.num status))) ∧
        (JValue.obj (setKey kvs "_http_status" (.num status))).lookup "_http_status"
          = some (.num status)) :=
  ⟨rfl, fun kvs => ⟨rfl, lookup_setKey_self kvs _ _⟩⟩

/-- Claim C9, counterexample: the empty JSON object lacks the
market_history key, yet validation fails with a message naming
Positions, not market_history, because the keys are checked in order
and Positions is missing too — so the claim as stated is false. -/
theorem C9_counterexample :
    validate_tick_payload (.obj []) = (false, "Missing required field: Positions")
    ∧ "Missing required field: Positions" ≠ "Missing required field: market_history" :=
  ⟨rfl, by decide⟩

/-- Claim C9 as amended: validation short-circuits on the first failing
rule in source order; for any payload that is an object holding
Positions and Market_Summary as lists but lacking market_history, it
fails with exactly the message naming market_history, and the /tick
route then answers the 400 failure reply with that message, leaving the
file state untouched (processing never runs). -/
theorem C9_amended (raw : JValue) (ps msum : List JValue)
    (hp : raw.lookup "Positions" = some (.arr ps))
    (hm : raw.lookup "Market_Summary" = some (.arr msum))
    (hh : raw.lookup "market_history" = none) :
    validate_tick_payload raw = (false, "Missing required field: market_history")
    ∧ ∀ (proc : StoreState → Except PyErr TickResult × StoreState) (st : StoreState),
        tick raw proc st
          = ({ status := 400, result := "failure",
               message := "Missing required field: market_history", body := none }, st) := by
  have hv := validate_missing_history hp hm hh
  refine ⟨hv, fun proc st => ?_⟩
  simp only [tick, hv]

/-- Witness for C9_amended: the object holding empty Positions and
Market_Summary lists and no market_history fails validation with the
message naming market_history, and the route rejects it with a 400
reply without touching the stores. -/
theorem C9_witness :
    validate_tick_payload (.obj [("Positions", .arr []), ("Market_Summary", .arr [])])
      = (false, "Missing required field: market_history")
    ∧ tick (.obj [("Positions", .arr []), ("Market_Summary", .arr [])])
        (fun s => (.error .transport, s)) ⟨none, none⟩
      = ({ status := 400, result := "failure",
           message := "Missing required field: market_history", body := none },
         (⟨none, none⟩ : StoreState)) := by
  obtain ⟨h1, h2⟩ := C9_amended (.obj [("Positions", .arr []), ("Market_Summary", .arr [])])
    [] [] rfl rfl rfl
  exact ⟨h1, h2 _ _⟩

/-- Claim C10: with duplicate Market_Summary rows for a ticker, the
price map that analyze_tick uses everywhere (P&L, snapshot,
reconciliation) binds that ticker to the current price of its last row,
and removing the earlier duplicate rows changes nothing about the tick:
result, exception behavior, and both stores are identical. -/
theorem C10_theorem (pos : List Position) (ms1 : List MarketRow) (m : MarketRow)
    (ms2 : List MarketRow) (h : ∀ m' ∈ ms2, m'.ticker ≠ m.ticker) :
    priceByTicker (ms1 ++ m :: ms2) m.ticker = some m.current_price
    ∧ ∀ (tid : String) (ai : RecResult) (out : MothershipOutcome) (st : StoreState),
        analyze_tick ⟨pos, ms1 ++ m :: ms2⟩ tid ai out st
          = analyze_tick ⟨pos, ms1.filter (fun mr => !(mr.ticker == m.ticker)) ++ m :: ms2⟩
              tid ai out st := by
  refine ⟨priceByTicker_append_last _ _ _ h, fun tid ai out st => ?_⟩
  exact analyze_congr_pm pos _ _ (priceByTicker_drop_earlier _ _ _ h) tid ai out st

/-- Witness for C10: two rows for ticker X (prices 100 then 110): the
price map binds X to 110, and dropping the earlier row leaves the whole
tick unchanged. -/
theorem C10_witness :
    priceByTicker ([⟨"X", 100, "a"⟩] ++ ⟨"X", 110, "low"⟩ :: []) "X" = some 110
    ∧ analyze_tick ⟨[⟨"X", 10, 100⟩], [⟨"X", 100, "a"⟩] ++ ⟨"X", 110, "low"⟩ :: []⟩ "t" sampleAI
        (.response 500 none) ⟨none, none⟩
      = analyze_tick ⟨[⟨"X", 10, 100⟩],
          ([⟨"X", 100, "a"⟩].filter (fun mr => !(mr.ticker == "X"))) ++ ⟨"X", 110, "low"⟩ :: []⟩
        "t" sampleAI (.response 500 none) ⟨none, none⟩ := by
  obtain ⟨h1, h2⟩ := C10_theorem [⟨"X", 10, 100⟩] [⟨"X", 100, "a"⟩] ⟨"X", 110, "low"⟩ []
    (by intro m' hm'; simp at hm')
  exact ⟨h1, h2 "t" sampleAI (.response 500 none) ⟨none, none⟩⟩

end Strat
